import Mathlib

/-!
Verification of `simple-web3-client` (`src/index.ts`, `src/ContractMethods.ts`,
`src/types.ts`) against its specification.

The TypeScript code is shallowly embedded: strings become `List Char`,
JavaScript exceptions become `Except` / `Option`, asynchronous provider and
ABI-codec calls become oracle fields of explicit structures, and the mutable
`pendingTransactions` array becomes explicit state passing.
-/

namespace Web3Client

/-- `type network = "mainnet" | "kovan" | "goerli" | "ropsten" | "rinkeby"`
(from `types.ts`). -/
inductive Network where
  | mainnet
  | kovan
  | goerli
  | ropsten
  | rinkeby
deriving DecidableEq, Repr

/-- The runtime string of a `network` value. -/
def Network.toChars : Network → List Char
  | .mainnet => "mainnet".data
  | .kovan => "kovan".data
  | .goerli => "goerli".data
  | .ropsten => "ropsten".data
  | .rinkeby => "rinkeby".data

/-- The typed failures of the client, one per distinct `throw` site.
`invalidInput` covers both messages of `validateInputPreProvider`;
`noOutputs` is the `"No outputs in ABI"` throw (the spec's `SchemaError`);
`noAbiFound` is `findInABI`'s `"No ABI found"` (the spec's `NotFoundError`);
`jsRuntimeError` stands for an exception escaping from JavaScript glue code
(e.g. `JSON.parse` on an unparseable `responseText`). -/
inductive W3Error where
  | invalidInput
  | unsupportedProvider
  | futureBlock
  | archiveRequired
  | decodeFailure
  | noAbiFound
  | noOutputs
  | jsRuntimeError
deriving DecidableEq, Repr

/-! ## Characters, hex digits and JavaScript string primitives -/

/-- A hexadecimal digit, as matched by the character class `[A-Fa-f0-9]`
(character comparisons taken on code points, as JavaScript does). -/
def isHexChar (c : Char) : Bool :=
  ('0'.toNat ≤ c.toNat && c.toNat ≤ '9'.toNat) ||
  ('a'.toNat ≤ c.toNat && c.toNat ≤ 'f'.toNat) ||
  ('A'.toNat ≤ c.toNat && c.toNat ≤ 'F'.toNat)

/-- Numeric value of a hex digit; `none` for a non-hex character. -/
def hexVal (c : Char) : Option Nat :=
  if '0'.toNat ≤ c.toNat && c.toNat ≤ '9'.toNat then some (c.toNat - '0'.toNat)
  else if 'a'.toNat ≤ c.toNat && c.toNat ≤ 'f'.toNat then
    some (c.toNat - 'a'.toNat + 10)
  else if 'A'.toNat ≤ c.toNat && c.toNat ≤ 'F'.toNat then
    some (c.toNat - 'A'.toNat + 10)
  else none

/-- `String.prototype.slice(start, end)` for the in-range case: both indices
clamped non-negative naturals, empty when `e ≤ s`. -/
def jsSlice (l : List Char) (s e : Nat) : List Char :=
  (l.drop s).take (e - s)

/-- `parseInt("0x" ++ l, 16)`: parse the longest hex-digit prefix of `l`;
`none` models the JavaScript `NaN` result when that prefix is empty.
(JavaScript numbers lose precision above 2^53; the embedding is exact, which
is faithful for every length field small enough to matter here.) -/
def jsParseIntHex (l : List Char) : Option Nat :=
  let digits := l.takeWhile isHexChar
  if digits.isEmpty then none
  else some (digits.foldl (fun acc c => 16 * acc + ((hexVal c).getD 0)) 0)

/-- Pair up an even-length run of hex digits into byte values; `none` on a
non-hex character or on odd length (ethers' `arrayify` throws on both). -/
def hexPairsToBytes : List Char → Option (List Nat)
  | [] => some []
  | [_] => none
  | c1 :: c2 :: rest => do
    let h ← hexVal c1
    let l ← hexVal c2
    let bs ← hexPairsToBytes rest
    pure ((16 * h + l) :: bs)

/-- Is `b` a UTF-8 continuation byte (`10xxxxxx`)? -/
def isContByte (b : Nat) : Bool := 0x80 ≤ b && b ≤ 0xBF

/-- Strict UTF-8 decoding of a byte list into Unicode scalar values, as
implemented by ethers v5's `toUtf8String` with the default (throwing) error
handler: rejects stray continuation bytes, bad prefixes, truncated sequences,
overlong encodings, surrogates and code points above `0x10FFFF`. -/
def utf8Decode : List Nat → Option (List Char)
  | [] => some []
  | b :: rest =>
    if b < 0x80 then do
      let cs ← utf8Decode rest
      pure (Char.ofNat b :: cs)
    else if b < 0xC0 then none
    else if b < 0xE0 then
      match rest with
      | c1 :: rest' =>
        if isContByte c1 then
          let cp := (b - 0xC0) * 0x40 + (c1 - 0x80)
          if cp < 0x80 then none
          else do
            let cs ← utf8Decode rest'
            pure (Char.ofNat cp :: cs)
        else none
      | _ => none
    else if b < 0xF0 then
      match rest with
      | c1 :: c2 :: rest' =>
        if isContByte c1 && isContByte c2 then
          let cp := (b - 0xE0) * 0x1000 + (c1 - 0x80) * 0x40 + (c2 - 0x80)
          if cp < 0x800 then none
          else if 0xD800 ≤ cp && cp ≤ 0xDFFF then none
          else do
            let cs ← utf8Decode rest'
            pure (Char.ofNat cp :: cs)
        else none
      | _ => none
    else if b < 0xF8 then
      match rest with
      | c1 :: c2 :: c3 :: rest' =>
        if isContByte c1 && isContByte c2 && isContByte c3 then
          let cp := (b - 0xF0) * 0x40000 + (c1 - 0x80) * 0x1000 +
                    (c2 - 0x80) * 0x40 + (c3 - 0x80)
          if cp < 0x10000 then none
          else if 0x10FFFF < cp then none
          else do
            let cs ← utf8Decode rest'
            pure (Char.ofNat cp :: cs)
        else none
      | _ => none
    else none

/-- `ethers.utils.toUtf8String` applied to a `0x`-prefixed hex string:
`arrayify` the hex body (throws unless the prefix is `0x` and the body is an
even-length run of hex digits), then strictly UTF-8 decode. -/
def toUtf8String (cs : List Char) : Option (List Char) :=
  match cs with
  | '0' :: 'x' :: rest => (hexPairsToBytes rest).bind utf8Decode
  | _ => none

/-- `.replace(/0+$/, "")`: remove the maximal trailing run of `'0'`
characters. -/
def stripTrailingZeros (l : List Char) : List Char :=
  (l.reverse.dropWhile (· = '0')).reverse

/-! ## `decodeMessage` -/

/-- Byte offsets of `decodeMessage`, as in the source:
`strLengthStartPos = 2 + (4 + 32) * 2 = 74`,
`strDataStartPos = 2 + (4 + 32 + 32) * 2 = 138`. -/
def strLengthStartPos : Nat := 2 + (4 + 32) * 2

def strDataStartPos : Nat := 2 + (4 + 32 + 32) * 2

/-- `decodeMessage(code, network)` from `index.ts`. `code` is the raw hex
string (with its `0x` prefix); the result is the decoded reason string, with
`none` for a thrown exception.

In the kovan branch the source declares `let codeString;` and tests
`if (codeString === "0x") return ""` *before* assigning `codeString`; the
unassigned variable is embedded as `codeStringInit : Option (List Char) :=
none`, and the guard compares it to `some "0x"`. A `NaN` string length
(`parseInt` of a non-hex prefix) makes `strDataEndPos` `NaN`, which
`String.prototype.slice` coerces to `0`. -/
def decodeMessage (code : List Char) (network : Network) : Option (List Char) :=
  let codeStringInit : Option (List Char) := none
  let codeString :=
    if network = Network.kovan then
      let strLengthHex := (code.drop strLengthStartPos).take (32 * 2)
      let strLengthInt := jsParseIntHex strLengthHex
      if codeStringInit = some ('0' :: 'x' :: []) then none
      else
        let strDataEndPos := match strLengthInt with
          | some n => strDataStartPos + n * 2
          | none => 0
        some ('0' :: 'x' :: jsSlice code strDataStartPos strDataEndPos)
    else
      some (stripTrailingZeros ('0' :: 'x' :: code.drop strDataStartPos))
  match codeString with
  | none => some []
  | some cs =>
    let padded := if cs.length % 2 = 1 then cs ++ ['0'] else cs
    toUtf8String padded

/-! ## Revert-resolution validation and pipeline -/

/-- The regular expression test of `validateInputPreProvider`:
`/^0x([A-Fa-f0-9]{64})$/.test(txHash)`. -/
def txHashRegexTest (txHash : List Char) : Bool :=
  match txHash with
  | c1 :: c2 :: rest =>
    c1 == '0' && c2 == 'x' && rest.length == 64 && rest.all isHexChar
  | _ => false

/-- The supported-network names from `validateInputPreProvider`:
`["mainnet", "kovan", "goerli", "ropsten", "rinkeby"]`. -/
def supportedNetworkNames : List (List Char) :=
  ["mainnet".data, "kovan".data, "goerli".data, "ropsten".data, "rinkeby".data]

/-- `validateInputPreProvider(txHash, network)` from `index.ts`: rejects with
`"Invalid transaction hash"` unless the hash matches the regex (and, redundantly,
starts with `0x`), then rejects with `"Not a valid network"` unless the network
name is in the supported list. Both throws are `InvalidInputError`. -/
def validateInputPreProvider (txHash : List Char) (network : Network) :
    Except W3Error Unit :=
  if !txHashRegexTest txHash || !(txHash.take 2 == ['0', 'x']) then
    Except.error W3Error.invalidInput
  else if !(supportedNetworkNames.contains network.toChars) then
    Except.error W3Error.invalidInput
  else
    Except.ok ()

/-- A historical block tag: the string `"latest"` or a block number (already
passed through JavaScript `Number(...)`, hence an integer here). -/
inductive BlockTag where
  | latest
  | num (b : Int)
deriving DecidableEq, Repr

/-- Outcome of the canary `provider.getBalance(AddressZero, blockNumber)`
probe: success, or a rejection whose `responseText` parses to a JSON error
object carrying `code`, or a rejection whose `responseText` is not parseable
JSON (so the `JSON.parse` in the catch block itself throws). -/
inductive CanaryResult where
  | ok
  | errCode (code : Int)
  | errNoJson
deriving DecidableEq, Repr

/-- Outcome of `provider.call(tx, blockNumber)` during replay: the raw return
hex string, or a rejection whose `responseText` carries
`error.data` (the Parity format consumed by the kovan branch of `getCode`). -/
inductive CallResult where
  | ok (code : List Char)
  | err (errorData : List Char)
deriving DecidableEq, Repr

/-- The ethers `BaseProvider` as seen by the revert-resolution pipeline, as an
oracle: every asynchronous provider method becomes a field giving its
response. -/
structure Provider where
  /-- Does `provider.getTransaction(txHash)` reject? -/
  getTransactionFails : Bool
  /-- The value of `provider.getBlockNumber()`. -/
  currentBlockNumber : Int
  /-- The outcome of `provider.getBalance(AddressZero, b)` at block `b`. -/
  getBalance : Int → CanaryResult
  /-- The outcome of `provider.call(tx, blockTag)`. -/
  call : BlockTag → CallResult

/-- `validateInputPostProvider(txHash, network, blockNumber, provider)` from
`index.ts`.

Kovan probe: the source does `const tx = await provider.getTransaction(txHash);
this.getCode(tx, ...)` inside a `try`. `getCode` is an `async` function called
*without* `await`, so a rejection of its promise is never caught here; only a
rejection of `getTransaction` reaches the catch and produces the
`UnsupportedProviderError` message.

Block check: when `blockNumber !== "latest"`, a block `≥ currentBlockNumber`
throws `FutureBlockError`; a block more than 128 behind triggers the canary
balance query, and a canary rejection whose parsed error code is the Infura
archive code `-32002` throws `ArchiveRequiredError` (any other code is
swallowed; an unparseable `responseText` lets `JSON.parse`'s own exception
escape). -/
def validateInputPostProvider (network : Network) (blockNumber : BlockTag)
    (provider : Provider) : Except W3Error Unit :=
  if network = Network.kovan && provider.getTransactionFails then
    Except.error W3Error.unsupportedProvider
  else
    match blockNumber with
    | BlockTag.latest => Except.ok ()
    | BlockTag.num b =>
      if b ≥ provider.currentBlockNumber then
        Except.error W3Error.futureBlock
      else if b < provider.currentBlockNumber - 128 then
        match provider.getBalance b with
        | CanaryResult.ok => Except.ok ()
        | CanaryResult.errCode code =>
          if code = -32002 then Except.error W3Error.archiveRequired
          else Except.ok ()
        | CanaryResult.errNoJson => Except.error W3Error.jsRuntimeError
      else
        Except.ok ()

/-- `getCode(tx, network, blockNumber, provider)` from `index.ts`: on kovan a
rejected `provider.call` is caught and the revert data is read from the error
payload, skipping a fixed 9-character prefix
(`JSON.parse(err.responseText).error.data.substr(9)`); on any other network the
call result is returned and a rejection propagates. -/
def getCode (network : Network) (blockNumber : BlockTag) (provider : Provider) :
    Except W3Error (List Char) :=
  if network = Network.kovan then
    match provider.call blockNumber with
    | CallResult.ok code => Except.ok code
    | CallResult.err errorData => Except.ok (errorData.drop 9)
  else
    match provider.call blockNumber with
    | CallResult.ok code => Except.ok code
    | CallResult.err _ => Except.error W3Error.jsRuntimeError

/-- `getRevertReason(txHash, network, blockNumber)` from `index.ts`, with the
provider injected as an oracle. `normalizeInput` defaults an absent block
number to `"latest"` (network lower-casing is the identity on the `Network`
enumeration). The replay-and-decode stage is wrapped in a `try` whose catch
rethrows `"Unable to decode revert reason."`, the spec's `DecodeFailure`. -/
def getRevertReason (txHash : List Char) (network : Network)
    (blockNumber : Option BlockTag) (provider : Provider) :
    Except W3Error (List Char) :=
  let blockNumber := blockNumber.getD BlockTag.latest
  match validateInputPreProvider txHash network with
  | Except.error e => Except.error e
  | Except.ok _ =>
    match validateInputPostProvider network blockNumber provider with
    | Except.error e => Except.error e
    | Except.ok _ =>
      let stage : Except W3Error (List Char) :=
        if provider.getTransactionFails then
          Except.error W3Error.jsRuntimeError
        else
          match getCode network blockNumber provider with
          | Except.error e => Except.error e
          | Except.ok code =>
            match decodeMessage code network with
            | some s => Except.ok s
            | none => Except.error W3Error.jsRuntimeError
      match stage with
      | Except.ok s => Except.ok s
      | Except.error _ => Except.error W3Error.decodeFailure

/-! ## ABI lookup, call encoding/decoding, `call` -/

/-- One output entry of an ABI item: `{ name, type }`. -/
structure AbiOutput where
  name : List Char
  type : List Char
deriving DecidableEq, Repr

/-- An ABI item as used by this client: its `name` and its optional `outputs`
array. The TypeScript `outputs?: AbiOutput[]` distinguishes an absent field
(`undefined`, falsy) from a present-but-empty array (truthy in JavaScript);
`Option` mirrors that. -/
structure AbiItem where
  name : List Char
  outputs : Option (List AbiOutput)
deriving DecidableEq, Repr

/-- `ContractMethod` from `types.ts` (the `method` field is unused by the
code paths under verification). -/
structure ContractMethod where
  name : List Char
  signature : List Char
  address : List Char
  abi : List AbiItem
deriving DecidableEq, Repr

/-- `findInABI(name, abi)` from `ContractMethods.ts`:
`abi.find(current => current.name === name)`, throwing `"No ABI found"` when
absent. -/
def findInABI (name : List Char) (abi : List AbiItem) : Except W3Error AbiItem :=
  match abi.find? (fun current => current.name == name) with
  | some item => Except.ok item
  | none => Except.error W3Error.noAbiFound

/-- Opaque JavaScript values: the `any[]` arguments of `call`/`transaction`
and the decoded results from the web3 ABI codec are never inspected by the
client, so a fixed carrier suffices. -/
def JsValue : Type := List Char

/-- The `web3Instance.eth` surface the executor uses, as oracles: the ABI
codec (`encodeFunctionSignature`, `encodeFunctionCall`, `decodeParameters`)
and the read-only `eth.call` transport. -/
structure EthApi where
  encodeFunctionSignature : List Char → List Char
  encodeFunctionCall : AbiItem → List JsValue → List Char
  decodeParameters : List AbiOutput → List Char → JsValue
  ethCall : List Char → List Char → List Char

/-- `encodeMethod(method, ...args)` from `index.ts`: with no arguments, only
the function-signature selector of `method.signature` is produced; otherwise
the ABI item is resolved with `findInABI` and fully encoded with the
arguments. -/
def encodeMethod (eth : EthApi) (method : ContractMethod) (args : List JsValue) :
    Except W3Error (List Char) :=
  if args.length = 0 then
    Except.ok (eth.encodeFunctionSignature method.signature)
  else
    match findInABI method.name method.abi with
    | Except.error e => Except.error e
    | Except.ok abiItem => Except.ok (eth.encodeFunctionCall abiItem args)

/-- `decodeOutput(method, output)` from `index.ts`: resolve the ABI item, throw
`"No outputs in ABI"` when its `outputs` field is absent, otherwise decode
`output` against the declared `{name, type}` pairs. -/
def decodeOutput (eth : EthApi) (method : ContractMethod) (output : List Char) :
    Except W3Error JsValue :=
  match findInABI method.name method.abi with
  | Except.error e => Except.error e
  | Except.ok abiItem =>
    match abiItem.outputs with
    | none => Except.error W3Error.noOutputs
    | some outs =>
      Except.ok (eth.decodeParameters (outs.map fun o => ⟨o.name, o.type⟩) output)

/-- `call(method, ...args)` from `index.ts`: encode, perform `eth.call` against
`method.address`, return `null` (here `none`) on the empty-bytes sentinel
`"0x"`, and otherwise decode the raw return. -/
def call (eth : EthApi) (method : ContractMethod) (args : List JsValue) :
    Except W3Error (Option JsValue) :=
  match encodeMethod eth method args with
  | Except.error e => Except.error e
  | Except.ok data =>
    let result := eth.ethCall method.address data
    if result = "0x".data then
      Except.ok none
    else
      match decodeOutput eth method result with
      | Except.error e => Except.error e
      | Except.ok decoded => Except.ok (some decoded)

/-! ## Receipt polling and pending-transaction bookkeeping -/

/-- Receipt `status` flag. -/
inductive ReceiptStatus where
  | success
  | failure
deriving DecidableEq, Repr

/-- The provider receipt (`web3.eth.getTransactionReceipt`), reduced to the
fields `getReceipt` reads. -/
structure RawReceipt where
  status : ReceiptStatus
  transactionHash : List Char
deriving DecidableEq, Repr

/-- The extended receipt returned by `getReceipt`: the raw receipt plus the
added `revertReason` field. -/
structure TransactionReceipt where
  status : ReceiptStatus
  transactionHash : List Char
  revertReason : Option (List Char)
deriving DecidableEq, Repr

/-- `getReceipt(txId)` from `index.ts`, stripped of its poll loop: the loop
re-queries until `getTransactionReceipt` is non-null, so the embedding takes
the first non-null receipt directly, together with an oracle
`resolveRevert` for the `getRevertReason(receipt.transactionHash, "ropsten")`
call, and threads the `pendingTransactions` list explicitly. On failure status
a throwing revert resolution propagates (pending list untouched); otherwise the
hash is filtered out of the pending list and the extended receipt returned. -/
def getReceipt (resolveRevert : List Char → Except W3Error (List Char))
    (receipt : RawReceipt) (txId : List Char)
    (pendingTransactions : List (List Char)) :
    Except W3Error (TransactionReceipt × List (List Char)) :=
  let revertReasonE : Except W3Error (Option (List Char)) :=
    match receipt.status with
    | ReceiptStatus.failure =>
      match resolveRevert receipt.transactionHash with
      | Except.error e => Except.error e
      | Except.ok reason => Except.ok (some reason)
    | ReceiptStatus.success => Except.ok none
  match revertReasonE with
  | Except.error e => Except.error e
  | Except.ok revertReason =>
    let pending := pendingTransactions.filter (fun tx => tx != txId)
    Except.ok (⟨receipt.status, receipt.transactionHash, revertReason⟩, pending)

/-! ## Transaction submission (`transaction`)

`transaction` registers `transactionHash`/`error` callbacks on the
`sendTransaction` event stream and then enters
`while (true) { if (!resultHash) continue; ... }`. The loop body contains no
`await`, so the single-threaded event loop never regains control: stream
events (the hash event and the error event alike) are dispatched only at
suspension points, of which the loop has none. The embedding makes the event
loop explicit: a machine state holds the captured `resultHash` variable and
the queue of stream events not yet dispatched, and one step of the `while`
loop either returns the hash (when `resultHash` is set) or loops without
dispatching anything. -/

/-- An event emitted by the `sendTransaction` stream. -/
inductive TxEvent where
  | transactionHash (hash : List Char)
  | error
deriving DecidableEq, Repr

/-- State of `transaction`'s spin wait: the captured `resultHash` variable and
the stream events still queued (deliverable only when the JavaScript thread
suspends). -/
structure SpinState where
  resultHash : Option (List Char)
  queuedEvents : List TxEvent
deriving DecidableEq, Repr

/-- Outcome of `transaction` once the spin loop finishes: the hash returned to
the caller, or a propagated error. -/
inductive TxOutcome where
  | returned (hash : List Char)
  | errored
deriving DecidableEq, Repr

/-- Run up to `fuel` iterations of `while (true) { if (!resultHash) continue;
... return resultHash; }`. An iteration with `resultHash` set returns it; an
iteration without it loops — and, containing no `await`, dispatches no queued
event, so the state never changes. `none` means the loop is still spinning
after `fuel` iterations. -/
def spinLoop : SpinState → Nat → Option TxOutcome
  | _, 0 => none
  | s, fuel + 1 =>
    match s.resultHash with
    | some hash => some (TxOutcome.returned hash)
    | none => spinLoop s fuel

/-- `transaction(from, method, ...args)` from `index.ts`, after a successful
`estimateGas`: `sendTransaction` returns its event stream synchronously, so at
loop entry `resultHash` is still `undefined` and every stream event is still
queued. The caller observes an outcome only if the spin loop ever exits. -/
def transactionAwaitHash (events : List TxEvent) (fuel : Nat) : Option TxOutcome :=
  spinLoop ⟨none, events⟩ fuel

/-! ## Concrete payloads and spec-side predicates used by individual claims -/

/-- The standard ABI `Error(string)` revert encoding of `"hello"`: the 4-byte
selector `08c379a0`, a 32-byte data offset of `0x20`, a 32-byte string length
of `5`, and the UTF-8 bytes `68656c6c6f` right-padded with zero bytes to a
32-byte word. -/
def helloRevertPayload : List Char :=
  ("0x08c379a0" ++
   "0000000000000000000000000000000000000000000000000000000000000020" ++
   "0000000000000000000000000000000000000000000000000000000000000005" ++
   "68656c6c6f000000000000000000000000000000000000000000000000000000").data

/-- A revert payload whose hex tail after the 138-character header is the
single digit `8`: the intermediate string after header-stripping has odd
length, and the zero-nibble pad turns it into the lone byte `0x80`, which is
not valid UTF-8. -/
def oddTailPayload : List Char :=
  ("0x08c379a0" ++
   "0000000000000000000000000000000000000000000000000000000000000020" ++
   "0000000000000000000000000000000000000000000000000000000000000001" ++
   "8").data

/-- Modelled from the spec's words for comparison with the code's regex test:
a transaction hash is `0x` followed by exactly 64 hexadecimal characters
(total length 66). -/
def SpecTxHashFormat (s : List Char) : Prop :=
  s.take 2 = ['0', 'x'] ∧ s.length = 66 ∧ ∀ c ∈ s.drop 2, isHexChar c = true

instance decSpecTxHashFormat (s : List Char) : Decidable (SpecTxHashFormat s) :=
  inferInstanceAs
    (Decidable (s.take 2 = ['0', 'x'] ∧ s.length = 66 ∧
      ∀ c ∈ s.drop 2, isHexChar c = true))

/-- A concrete well-formed transaction hash (66 characters). -/
def sampleTxHash : List Char :=
  "0xaaaaaaaaaaaaaaaaaaaaaaaaaaaaaaaaaaaaaaaaaaaaaaaaaaaaaaaaaaaaaaaa".data

/-- A concrete provider at height 200 whose canary balance query succeeds. -/
def sampleProviderOkBalance : Provider :=
  ⟨false, 200, fun _ => CanaryResult.ok, fun _ => CallResult.ok []⟩

/-- A concrete provider at height 200 whose canary balance query always fails
with the Infura archive error code `-32002`. -/
def sampleProviderArchiveErr : Provider :=
  ⟨false, 200, fun _ => CanaryResult.errCode (-32002), fun _ => CallResult.ok []⟩

/-- A concrete ABI codec / transport whose read-only call returns non-empty
bytes. -/
def sampleEth : EthApi :=
  ⟨fun _ => "0x12345678".data, fun _ _ => "0xfullcall".data,
   fun _ _ => "decoded".data, fun _ _ => "0xbeef".data⟩

/-- A concrete contract method whose resolved ABI entry declares no
`outputs` field. -/
def sampleMethodNoOutputs : ContractMethod :=
  ⟨"foo".data, "foo()".data, "0x01".data, [⟨"foo".data, none⟩]⟩

/-- The kovan branch of `decodeMessage` with the dead `codeString === "0x"`
guard removed: the decoded span is always computed from the explicit 32-byte
string-length field. -/
def decodeKovanFromLength (code : List Char) : Option (List Char) :=
  let strLengthHex := (code.drop strLengthStartPos).take (32 * 2)
  let strLengthInt := jsParseIntHex strLengthHex
  let strDataEndPos := match strLengthInt with
    | some n => strDataStartPos + n * 2
    | none => 0
  let cs := '0' :: 'x' :: jsSlice code strDataStartPos strDataEndPos
  let padded := if cs.length % 2 = 1 then cs ++ ['0'] else cs
  toUtf8String padded

/-! ## Helper lemmas -/

/-- Every `Network` value's name is in the supported-network list, so the
`networks.includes(network)` check of `validateInputPreProvider` can never
fire on a correctly-typed argument. -/
lemma networkNames_contains (n : Network) :
    supportedNetworkNames.contains n.toChars = true := by
  cases n <;> decide

/-- The regex test `^0x([A-Fa-f0-9]{64})$` agrees with the spec's description
of a transaction hash. -/
lemma txHashRegexTest_iff (s : List Char) :
    txHashRegexTest s = true ↔ SpecTxHashFormat s := by
  match s with
  | [] => simp [txHashRegexTest, SpecTxHashFormat]
  | [c] => simp [txHashRegexTest, SpecTxHashFormat]
  | c1 :: c2 :: rest =>
    simp only [txHashRegexTest, SpecTxHashFormat, Bool.and_eq_true, beq_iff_eq,
      List.all_eq_true, List.take_succ_cons, List.take_zero,
      List.drop_succ_cons, List.drop_zero, List.length_cons,
      List.cons.injEq, and_true, Nat.beq_eq_true_eq]
    constructor
    · rintro ⟨⟨⟨h0, hx⟩, hlen⟩, hall⟩
      exact ⟨⟨h0, hx⟩, by omega, hall⟩
    · rintro ⟨⟨h0, hx⟩, hlen, hall⟩
      exact ⟨⟨⟨h0, hx⟩, by omega⟩, hall⟩

/-- A hash passing the regex makes `validateInputPreProvider` succeed. -/
lemma validateInputPreProvider_eq_ok (s : List Char) (n : Network)
    (h : txHashRegexTest s = true) :
    validateInputPreProvider s n = Except.ok () := by
  match s with
  | [] => simp [txHashRegexTest] at h
  | [c] => simp [txHashRegexTest] at h
  | c1 :: c2 :: rest =>
    have h' := h
    simp only [txHashRegexTest, Bool.and_eq_true, beq_iff_eq] at h'
    obtain ⟨⟨⟨h0, hx⟩, _⟩, _⟩ := h'
    subst h0; subst hx
    unfold validateInputPreProvider
    rw [h]
    simp
    simpa using networkNames_contains n

/-- A hash failing the regex makes `validateInputPreProvider` fail with the
`"Invalid transaction hash"` throw. -/
lemma validateInputPreProvider_eq_err (s : List Char) (n : Network)
    (h : txHashRegexTest s = false) :
    validateInputPreProvider s n = Except.error W3Error.invalidInput := by
  unfold validateInputPreProvider
  rw [h]
  simp

/-! ## Claim theorems -/

/-- C2: for every string consisting of `0x` followed by exactly 64 hexadecimal
characters, the pre-provider validation of revert resolution accepts the
transaction hash; for every other string (wrong length, missing `0x` prefix,
or any non-hex character), it fails with `InvalidInputError`. -/
theorem validateInputPreProvider_accepts_iff_hash_format (s : List Char)
    (n : Network) :
    (validateInputPreProvider s n = Except.ok () ↔ SpecTxHashFormat s) ∧
    (¬ SpecTxHashFormat s →
      validateInputPreProvider s n = Except.error W3Error.invalidInput) := by
  constructor
  · constructor
    · intro hok
      by_contra hspec
      have hregex : txHashRegexTest s = false := by
        cases hr : txHashRegexTest s
        · rfl
        · exact absurd ((txHashRegexTest_iff s).mp hr) hspec
      rw [validateInputPreProvider_eq_err s n hregex] at hok
      exact Except.noConfusion hok
    · intro hspec
      exact validateInputPreProvider_eq_ok s n ((txHashRegexTest_iff s).mpr hspec)
  · intro hspec
    have hregex : txHashRegexTest s = false := by
      cases hr : txHashRegexTest s
      · rfl
      · exact absurd ((txHashRegexTest_iff s).mp hr) hspec
    exact validateInputPreProvider_eq_err s n hregex

set_option maxRecDepth 20000 in
/-- Witness for C2: a concrete well-formed hash is accepted and a concrete
malformed one (a `z` among the 64 characters) is rejected. -/
theorem validateInputPreProvider_accepts_iff_hash_format_witness :
    validateInputPreProvider
      "0xaaaaaaaaaaaaaaaaaaaaaaaaaaaaaaaaaaaaaaaaaaaaaaaaaaaaaaaaaaaaaaaa".data
      Network.mainnet = Except.ok () ∧
    validateInputPreProvider
      "0xzaaaaaaaaaaaaaaaaaaaaaaaaaaaaaaaaaaaaaaaaaaaaaaaaaaaaaaaaaaaaaaa".data
      Network.mainnet = Except.error W3Error.invalidInput :=
  ⟨(validateInputPreProvider_accepts_iff_hash_format _ Network.mainnet).1.mpr
      (by decide),
   (validateInputPreProvider_accepts_iff_hash_format _ Network.mainnet).2
      (by decide)⟩

/-- When the kovan trial-replay guard does not fire, its boolean condition is
false. -/
lemma postProviderCond_false {n : Network} {p : Provider}
    (hP : ¬(n = Network.kovan ∧ p.getTransactionFails = true)) :
    (decide (n = Network.kovan) && p.getTransactionFails) = false := by
  cases hf : p.getTransactionFails
  · simp
  · have hk : ¬ n = Network.kovan := fun hk => hP ⟨hk, hf⟩
    simp [hk]

/-- A requested block at or above the current height fails the block check
with `FutureBlockError` (provided the kovan probe did not already throw). -/
lemma validateInputPostProvider_futureBlock {n : Network} {b : Int}
    {p : Provider}
    (hP : ¬(n = Network.kovan ∧ p.getTransactionFails = true))
    (hb : b ≥ p.currentBlockNumber) :
    validateInputPostProvider n (BlockTag.num b) p =
      Except.error W3Error.futureBlock := by
  unfold validateInputPostProvider
  rw [postProviderCond_false hP]
  simp [hb]

/-- A requested block strictly below the current height never produces
`FutureBlockError`. -/
lemma validateInputPostProvider_ne_futureBlock {n : Network} {b : Int}
    {p : Provider} (hb : b < p.currentBlockNumber) :
    validateInputPostProvider n (BlockTag.num b) p ≠
      Except.error W3Error.futureBlock := by
  unfold validateInputPostProvider
  have hge : ¬ (b ≥ p.currentBlockNumber) := by omega
  split
  · simp
  · dsimp only
    rw [if_neg hge]
    split
    · split
      · simp
      · split <;> simp
      · simp
    · simp

/-- C3: for every requested historical block number at or above the current
chain height, revert resolution fails with `FutureBlockError` — before any
replay is attempted, since the result is this error for every possible
provider replay behaviour; a requested block strictly below the current height
passes this check (the result is never `FutureBlockError`). The hypotheses
restrict to requests that reach the block check: a well-formed hash and a
kovan probe that does not throw first. -/
theorem getRevertReason_future_block_check (txHash : List Char)
    (network : Network) (b : Int) (p : Provider)
    (hHash : SpecTxHashFormat txHash)
    (hProbe : ¬(network = Network.kovan ∧ p.getTransactionFails = true)) :
    (b ≥ p.currentBlockNumber →
      getRevertReason txHash network (some (BlockTag.num b)) p =
        Except.error W3Error.futureBlock) ∧
    (b < p.currentBlockNumber →
      getRevertReason txHash network (some (BlockTag.num b)) p ≠
        Except.error W3Error.futureBlock) := by
  have hpre := validateInputPreProvider_eq_ok txHash network
    ((txHashRegexTest_iff txHash).mpr hHash)
  constructor
  · intro hb
    have hpost := validateInputPostProvider_futureBlock hProbe hb
    unfold getRevertReason
    rw [Option.getD_some, hpre]
    dsimp only
    rw [hpost]
  · intro hb hcontra
    have hpost := validateInputPostProvider_ne_futureBlock (n := network)
      (p := p) hb
    unfold getRevertReason at hcontra
    rw [Option.getD_some, hpre] at hcontra
    dsimp only at hcontra
    rcases hv : validateInputPostProvider network (BlockTag.num b) p with e | u
    · rw [hv] at hcontra
      dsimp only at hcontra
      rw [hv] at hpost
      exact hpost (by rw [Except.error.injEq] at hcontra ⊢; exact hcontra)
    · rw [hv] at hcontra
      dsimp only at hcontra
      rcases hstage :
          (if p.getTransactionFails = true then
            Except.error W3Error.jsRuntimeError
          else
            match getCode network (BlockTag.num b) p with
            | Except.error e => Except.error e
            | Except.ok code =>
              match decodeMessage code network with
              | some s => Except.ok s
              | none => Except.error W3Error.jsRuntimeError) with e | s
      · rw [hstage] at hcontra
        dsimp only at hcontra
        exact W3Error.noConfusion (Except.error.inj hcontra)
      · rw [hstage] at hcontra
        dsimp only at hcontra
        exact Except.noConfusion hcontra

set_option maxRecDepth 20000 in
/-- Witness for C3: against a provider at height 200, requesting block 200
fails with `FutureBlockError` and requesting block 5 does not. -/
theorem getRevertReason_future_block_check_witness :
    getRevertReason sampleTxHash Network.mainnet
      (some (BlockTag.num 200)) sampleProviderOkBalance =
        Except.error W3Error.futureBlock ∧
    getRevertReason sampleTxHash Network.mainnet
      (some (BlockTag.num 5)) sampleProviderOkBalance ≠
        Except.error W3Error.futureBlock :=
  ⟨(getRevertReason_future_block_check sampleTxHash Network.mainnet 200
      sampleProviderOkBalance (by decide) (by decide)).1 (by decide),
   (getRevertReason_future_block_check sampleTxHash Network.mainnet 5
      sampleProviderOkBalance (by decide) (by decide)).2 (by decide)⟩

/-- C4: a requested block at most 128 blocks behind the current chain height
never makes post-provider validation raise `ArchiveRequiredError`; a block
more than 128 blocks behind whose canary balance query fails with provider
error code `-32002` makes it fail with `ArchiveRequiredError` (provided the
kovan probe did not already throw). -/
theorem validateInputPostProvider_archive_window (network : Network) (b : Int)
    (p : Provider) :
    (p.currentBlockNumber - b ≤ 128 →
      validateInputPostProvider network (BlockTag.num b) p ≠
        Except.error W3Error.archiveRequired) ∧
    (¬(network = Network.kovan ∧ p.getTransactionFails = true) →
      b < p.currentBlockNumber - 128 →
      p.getBalance b = CanaryResult.errCode (-32002) →
      validateInputPostProvider network (BlockTag.num b) p =
        Except.error W3Error.archiveRequired) := by
  constructor
  · intro hwin
    unfold validateInputPostProvider
    split
    · simp
    · dsimp only
      split
      · simp
      · have hfar : ¬ (b < p.currentBlockNumber - 128) := by omega
        rw [if_neg hfar]
        simp
  · intro hProbe hfar hbal
    unfold validateInputPostProvider
    rw [postProviderCond_false hProbe]
    have hge : ¬ (b ≥ p.currentBlockNumber) := by omega
    simp only [Bool.false_eq_true, if_false]
    rw [if_neg hge, if_pos hfar, hbal]
    simp

set_option maxRecDepth 20000 in
/-- Witness for C4: against a provider at height 200 whose canary query fails
with code `-32002`, requesting block 100 (100 behind) does not raise
`ArchiveRequiredError` while requesting block 0 (200 behind) does. -/
theorem validateInputPostProvider_archive_window_witness :
    validateInputPostProvider Network.mainnet (BlockTag.num 100)
      sampleProviderArchiveErr ≠ Except.error W3Error.archiveRequired ∧
    validateInputPostProvider Network.mainnet (BlockTag.num 0)
      sampleProviderArchiveErr = Except.error W3Error.archiveRequired :=
  ⟨(validateInputPostProvider_archive_window Network.mainnet 100
      sampleProviderArchiveErr).1 (by decide),
   (validateInputPostProvider_archive_window Network.mainnet 0
      sampleProviderArchiveErr).2 (by decide) (by decide) (by decide)⟩

set_option maxRecDepth 20000 in
/-- C1: applying `decodeMessage` with any network other than kovan to the
standard ABI `Error(string)` revert encoding of `"hello"` (4-byte selector,
32-byte offset, 32-byte length, UTF-8 data right-padded with zero bytes)
yields exactly the string `"hello"`. -/
theorem decodeMessage_left_inverse_of_hello_encoding (network : Network)
    (h : network ≠ Network.kovan) :
    decodeMessage helloRevertPayload network = some "hello".data := by
  cases network
  · decide
  · exact absurd rfl h
  · decide
  · decide
  · decide

set_option maxRecDepth 20000 in
/-- Witness for C1: the mainnet layout decodes the `"hello"` payload. -/
theorem decodeMessage_left_inverse_of_hello_encoding_witness :
    decodeMessage helloRevertPayload Network.mainnet = some "hello".data :=
  decodeMessage_left_inverse_of_hello_encoding Network.mainnet (by decide)

/-- C10: the early-return guard of the kovan branch of `decodeMessage`
(`if (codeString === "0x") return ""`) is unreachable for every input, because
`codeString` is still unassigned (`undefined`) at the point of comparison; the
kovan branch therefore always computes the decoded span from the explicit
string-length field, i.e. coincides with the guard-free
`decodeKovanFromLength`. -/
theorem decodeMessage_kovan_guard_unreachable (code : List Char) :
    decodeMessage code Network.kovan = decodeKovanFromLength code := by
  rfl

/-- Dropping leading `'0'`s stops no later than the `'x'` of a trailing
`['x', '0']` block. -/
lemma dropWhile_zero_append_x0 (xs : List Char) :
    (xs ++ ['x', '0']).dropWhile (fun c => c = '0') =
      xs.dropWhile (fun c => c = '0') ++ ['x', '0'] := by
  induction xs with
  | nil => simp [List.dropWhile_cons]
  | cons a xs ih =>
    by_cases h : a = '0'
    · simp [List.dropWhile_cons, h, ih]
    · simp [List.dropWhile_cons, h]

/-- Stripping trailing zeros commutes with the `0x` prefix: the `'x'` shields
the prefix, so only zeros of the hex body are removed. -/
lemma stripTrailingZeros_0x (l : List Char) :
    stripTrailingZeros ('0' :: 'x' :: l) = '0' :: 'x' :: stripTrailingZeros l := by
  unfold stripTrailingZeros
  rw [List.reverse_cons, List.reverse_cons, List.append_assoc]
  have : (['x'] : List Char) ++ ['0'] = ['x', '0'] := rfl
  rw [this, dropWhile_zero_append_x0, List.reverse_append]
  rfl

/-- Characters surviving `stripTrailingZeros` come from the original list. -/
lemma mem_of_mem_stripTrailingZeros {c : Char} {l : List Char}
    (h : c ∈ stripTrailingZeros l) : c ∈ l := by
  unfold stripTrailingZeros at h
  rw [List.mem_reverse] at h
  have hsub := List.dropWhile_sublist (l := l.reverse) (fun c => c = '0')
  rw [← List.mem_reverse]
  exact hsub.mem h

/-- A character in the class `[A-Fa-f0-9]` has a hex value. -/
lemma hexVal_isSome_of_isHexChar {c : Char} (h : isHexChar c = true) :
    (hexVal c).isSome = true := by
  unfold isHexChar at h
  unfold hexVal
  simp only [Bool.or_eq_true, Bool.and_eq_true, decide_eq_true_eq] at h
  rcases h with (⟨h1, h2⟩ | ⟨h1, h2⟩) | ⟨h1, h2⟩ <;>
    split <;> (try rfl) <;> split <;> (try rfl) <;> split <;> (try rfl) <;>
    simp_all

/-- An even-length run of hex digits always converts to bytes. -/
lemma hexPairsToBytes_isSome :
    ∀ l : List Char, l.all isHexChar = true → l.length % 2 = 0 →
      (hexPairsToBytes l).isSome = true
  | [], _, _ => rfl
  | [c], _, heven => by simp at heven
  | c1 :: c2 :: rest, hall, heven => by
    simp only [List.all_cons, Bool.and_eq_true] at hall
    obtain ⟨h1, h2, hrest⟩ := hall
    have hr : rest.length % 2 = 0 := by
      simp only [List.length_cons] at heven
      omega
    have hv1 := hexVal_isSome_of_isHexChar h1
    have hv2 := hexVal_isSome_of_isHexChar h2
    have hrec := hexPairsToBytes_isSome rest hrest hr
    rw [Option.isSome_iff_exists] at hv1 hv2 hrec
    obtain ⟨a1, ha1⟩ := hv1
    obtain ⟨a2, ha2⟩ := hv2
    obtain ⟨bs, hbs⟩ := hrec
    simp [hexPairsToBytes, ha1, ha2, hbs]

set_option maxRecDepth 20000 in
/-- Counterexample for C5: a revert payload whose intermediate hex string
after header-stripping is `0x8` (odd length). The decoder pads it to `0x80`,
whose single byte `0x80` is not valid UTF-8, so `toUtf8String` throws and
`decodeMessage` raises (returns `none`) — the claim's "the decoder does not
raise" fails. -/
theorem decodeMessage_odd_intermediate_counterexample :
    (stripTrailingZeros
        ('0' :: 'x' :: oddTailPayload.drop strDataStartPos)).length % 2 = 1 ∧
    decodeMessage oddTailPayload Network.mainnet = none := by
  constructor
  · decide
  · decide

/-- C5 (amended): for every revert payload whose intermediate hex string after
header-stripping has odd length, the non-kovan decoder appends exactly one
trailing zero nibble and then UTF-8 decodes the result; the odd length itself
never causes a failure — whenever the stripped tail consists of hex digits the
padded string converts to bytes and the result is exactly their strict UTF-8
decoding (which may still fail on bytes that are not valid UTF-8, as the
counterexample shows). -/
theorem decodeMessage_odd_intermediate_pads_one_nibble (code : List Char)
    (network : Network) (hk : network ≠ Network.kovan)
    (hodd : (stripTrailingZeros
        ('0' :: 'x' :: code.drop strDataStartPos)).length % 2 = 1) :
    decodeMessage code network =
      toUtf8String
        (stripTrailingZeros ('0' :: 'x' :: code.drop strDataStartPos) ++ ['0']) ∧
    ((code.drop strDataStartPos).all isHexChar = true →
      ∃ bs,
        hexPairsToBytes
          (stripTrailingZeros (code.drop strDataStartPos) ++ ['0']) = some bs ∧
        decodeMessage code network = utf8Decode bs) := by
  have hmain : decodeMessage code network =
      toUtf8String
        (stripTrailingZeros ('0' :: 'x' :: code.drop strDataStartPos) ++ ['0']) := by
    unfold decodeMessage
    dsimp only
    rw [if_neg hk]
    dsimp only
    rw [if_pos hodd]
  refine ⟨hmain, fun hall => ?_⟩
  have hx := stripTrailingZeros_0x (code.drop strDataStartPos)
  have htail_all :
      ((stripTrailingZeros (code.drop strDataStartPos)) ++ ['0']).all isHexChar
        = true := by
    rw [List.all_eq_true]
    intro c hc
    rcases List.mem_append.mp hc with hc | hc
    · exact (List.all_eq_true.mp hall) c (mem_of_mem_stripTrailingZeros hc)
    · simp only [List.mem_singleton] at hc
      subst hc
      decide
  have htail_len :
      ((stripTrailingZeros (code.drop strDataStartPos)) ++ ['0']).length % 2
        = 0 := by
    rw [hx] at hodd
    simp only [List.length_cons] at hodd
    simp only [List.length_append, List.length_singleton]
    omega
  have hsome := hexPairsToBytes_isSome _ htail_all htail_len
  rw [Option.isSome_iff_exists] at hsome
  obtain ⟨bs, hbs⟩ := hsome
  refine ⟨bs, hbs, ?_⟩
  rw [hmain, hx]
  have : ('0' :: 'x' :: stripTrailingZeros (code.drop strDataStartPos)) ++ ['0']
      = '0' :: 'x' :: (stripTrailingZeros (code.drop strDataStartPos) ++ ['0']) := by
    simp
  rw [this]
  show (hexPairsToBytes
      (stripTrailingZeros (code.drop strDataStartPos) ++ ['0'])).bind utf8Decode
    = utf8Decode bs
  rw [hbs]
  rfl

set_option maxRecDepth 20000 in
/-- Witness for C5 (amended): on the odd-tail payload, the decoder is exactly
one-zero-nibble padding followed by UTF-8 decoding. -/
theorem decodeMessage_odd_intermediate_pads_one_nibble_witness :
    decodeMessage oddTailPayload Network.mainnet =
      toUtf8String
        (stripTrailingZeros
          ('0' :: 'x' :: oddTailPayload.drop strDataStartPos) ++ ['0']) :=
  (decodeMessage_odd_intermediate_pads_one_nibble oddTailPayload
    Network.mainnet (by decide) (by decide)).1

/-- C6: for every method and arguments whose encoding succeeds, if the
provider's raw return for the read-only call is the empty-bytes sentinel
`"0x"`, `call` returns null (`none`) without attempting to decode (for every
possible codec, in particular for every `decodeParameters`); otherwise it
decodes using the method's declared outputs, failing with `SchemaError`
(`"No outputs in ABI"`) when the resolved ABI entry declares no outputs. -/
theorem call_null_on_empty_sentinel_and_schema_error (eth : EthApi)
    (method : ContractMethod) (args : List JsValue) (data : List Char)
    (henc : encodeMethod eth method args = Except.ok data) :
    (eth.ethCall method.address data = "0x".data →
      call eth method args = Except.ok none) ∧
    (eth.ethCall method.address data ≠ "0x".data →
      ∀ item, findInABI method.name method.abi = Except.ok item →
        (item.outputs = none →
          call eth method args = Except.error W3Error.noOutputs) ∧
        (∀ outs, item.outputs = some outs →
          call eth method args = Except.ok (some (eth.decodeParameters
            (outs.map fun o => ⟨o.name, o.type⟩)
            (eth.ethCall method.address data))))) := by
  constructor
  · intro hres
    unfold call
    rw [henc]
    dsimp only
    rw [if_pos hres]
  · intro hres item hitem
    have hdec : ∀ output, decodeOutput eth method output =
        match item.outputs with
        | none => Except.error W3Error.noOutputs
        | some outs =>
          Except.ok (eth.decodeParameters
            (outs.map fun o => ⟨o.name, o.type⟩) output) := by
      intro output
      unfold decodeOutput
      rw [hitem]
    constructor
    · intro hout
      unfold call
      rw [henc]
      dsimp only
      rw [if_neg hres, hdec, hout]
    · intro outs hout
      unfold call
      rw [henc]
      dsimp only
      rw [if_neg hres, hdec, hout]

/-- Witness for C6: with a concrete codec whose read-only call returns
`0xbeef` and a method whose ABI entry has no `outputs` field, `call` fails
with the `"No outputs in ABI"` error. -/
theorem call_null_on_empty_sentinel_and_schema_error_witness :
    call sampleEth sampleMethodNoOutputs [] = Except.error W3Error.noOutputs :=
  ((call_null_on_empty_sentinel_and_schema_error sampleEth
      sampleMethodNoOutputs [] _ rfl).2 (by decide)
    ⟨"foo".data, none⟩ rfl).1 rfl

/-- C7: `encodeCall` with an empty argument list produces only the function
selector derived from the method's `callSignature`, without resolving the ABI
entry through the Registry (the result does not consult `findInABI`, whose
outcome is arbitrary here); with a non-empty argument list the ABI entry is
resolved by name and the encoding is the full selector-plus-parameters
encoding (`encodeFunctionCall`), with `findInABI`'s failure propagated. -/
theorem encodeMethod_bare_selector_iff_no_args (eth : EthApi)
    (method : ContractMethod) (args : List JsValue) :
    (args = [] →
      encodeMethod eth method args =
        Except.ok (eth.encodeFunctionSignature method.signature)) ∧
    (args ≠ [] →
      encodeMethod eth method args =
        match findInABI method.name method.abi with
        | Except.error e => Except.error e
        | Except.ok item => Except.ok (eth.encodeFunctionCall item args)) := by
  constructor
  · intro h
    subst h
    rfl
  · intro h
    have hlen : ¬ (args.length = 0) := by
      simpa [List.length_eq_zero] using h
    unfold encodeMethod
    rw [if_neg hlen]

/-- Witness for C7: a method whose name is absent from its ABI fragment still
encodes with empty arguments (no registry resolution), while a non-empty
argument list propagates the `"No ABI found"` failure. -/
theorem encodeMethod_bare_selector_iff_no_args_witness :
    encodeMethod sampleEth ⟨"bar".data, "bar()".data, "0x01".data, []⟩ [] =
      Except.ok (sampleEth.encodeFunctionSignature "bar()".data) ∧
    encodeMethod sampleEth ⟨"bar".data, "bar()".data, "0x01".data, []⟩
      ["1".data] = Except.error W3Error.noAbiFound :=
  ⟨(encodeMethod_bare_selector_iff_no_args sampleEth
      ⟨"bar".data, "bar()".data, "0x01".data, []⟩ []).1 rfl,
   (encodeMethod_bare_selector_iff_no_args sampleEth
      ⟨"bar".data, "bar()".data, "0x01".data, []⟩ ["1".data]).2
      (List.cons_ne_nil _ _)⟩

/-- C8: whenever `getReceipt` returns (success and failure status alike), the
polled hash is no longer in the pending-transaction list, and membership of
every other hash is unchanged. -/
theorem getReceipt_removes_hash_from_pending
    (resolveRevert : List Char → Except W3Error (List Char))
    (receipt : RawReceipt) (txId : List Char) (pending : List (List Char))
    (out : TransactionReceipt × List (List Char))
    (h : getReceipt resolveRevert receipt txId pending = Except.ok out) :
    txId ∉ out.2 ∧
    ∀ hash, hash ≠ txId → (hash ∈ out.2 ↔ hash ∈ pending) := by
  have hsnd : out.2 = pending.filter (fun tx => tx != txId) := by
    unfold getReceipt at h
    dsimp only at h
    split at h
    · exact Except.noConfusion h
    · rw [Except.ok.injEq] at h
      rw [← h]
  constructor
  · rw [hsnd]
    simp [List.mem_filter]
  · intro hash hne
    rw [hsnd]
    simp [List.mem_filter, hne]

/-- Witness for C8: polling hash `"a"` removes it from the pending list
`["a", "b"]` and keeps `"b"`. -/
theorem getReceipt_removes_hash_from_pending_witness :
    "a".data ∉
      ((⟨ReceiptStatus.failure, "a".data, some []⟩, ["b".data]) :
        TransactionReceipt × List (List Char)).2 ∧
    ∀ hash, hash ≠ "a".data →
      (hash ∈ ((⟨ReceiptStatus.failure, "a".data, some []⟩, ["b".data]) :
          TransactionReceipt × List (List Char)).2 ↔
        hash ∈ ["a".data, "b".data]) :=
  getReceipt_removes_hash_from_pending (fun _ => Except.ok [])
    ⟨ReceiptStatus.failure, "a".data⟩ "a".data ["a".data, "b".data]
    (⟨ReceiptStatus.failure, "a".data, some []⟩, ["b".data]) rfl

/-- C9 (refuting theorem): the spin wait of `transaction` never terminates and
never delivers a stream event. The loop body
`while (true) { if (!resultHash) continue; ... }` contains no suspension
point, so however many iterations run and whatever events (in particular an
`error` event) the submission stream has queued, the loop neither returns a
hash nor lets the error callback run: no error ever propagates to the
caller. -/
theorem transaction_spin_loop_never_observes_error (events : List TxEvent)
    (fuel : Nat) : transactionAwaitHash events fuel = none := by
  induction fuel with
  | zero => rfl
  | succ n ih => exact ih
